import Mathlib

/-!
Verification development for the mu-exam-bot repository (src/main.py).

The Python program is a Telegram bot over a SQLite table of uploaded
documents plus a Gemini AI adapter.  The definitions below are a shallow
embedding of the functions of src/main.py: the SQLite table is a list of
rows with an AUTOINCREMENT counter, SQL LIKE is modelled character by
character with SQLite's default ASCII case folding, exceptions of the
Python code are modelled with Except/Option, and each Telegram handler is
a pure function from its inbound message plus the results of its external
calls to the replies it sends and the state it leaves behind.
-/

namespace MuBot

/-! ## Python string primitives -/

/-- Characters stripped by Python str.strip() with no argument
(ASCII whitespace; Python also strips some further Unicode space
characters, which this model omits). -/
def isPySpace (c : Char) : Bool :=
  c = ' ' || c = '\t' || c = '\n' || c = '\r' || c = '\x0b' || c = '\x0c'

/-- Leading whitespace removal on character lists. -/
def dropLead (l : List Char) : List Char := l.dropWhile isPySpace

/-- Trailing whitespace removal on character lists. -/
def dropTrail (l : List Char) : List Char :=
  (l.reverse.dropWhile isPySpace).reverse

/-- Python str.strip() on character lists. -/
def pyStripL (l : List Char) : List Char := dropTrail (dropLead l)

/-- Python str.strip(). -/
def pyStrip (s : String) : String := ⟨pyStripL s.data⟩

/-- ASCII lower casing of one character: SQLite's default LIKE folds the
ASCII range A-Z, and Python str.lower() agrees with this on ASCII. -/
def lowerAscii (c : Char) : Char :=
  if 'A' ≤ c ∧ c ≤ 'Z' then Char.ofNat (c.toNat + 32) else c

/-- Lower casing of a whole string (ASCII model of str.lower()). -/
def lowerStr (s : String) : String := ⟨s.data.map lowerAscii⟩

/-- Literal list prefix test (case sensitive), used to state properties
about fixed message prefixes. -/
def litPre : List Char → List Char → Bool
  | [], _ => true
  | _ :: _, [] => false
  | a :: p, b :: s => a = b && litPre p s

/-- Literal substring test (case sensitive): the spec-side notion of
"contains q as a substring". -/
def litSub (needle : List Char) : List Char → Bool
  | [] => litPre needle []
  | c :: rest => litPre needle (c :: rest) || litSub needle rest

/-- Case-insensitive (ASCII-folded) list prefix test. -/
def ciPre : List Char → List Char → Bool
  | [], _ => true
  | _ :: _, [] => false
  | a :: p, b :: s => lowerAscii a = lowerAscii b && ciPre p s

/-- Case-insensitive (ASCII-folded) substring test: the spec-side notion
of substring matching under SQLite's default LIKE case folding. -/
def ciSub (needle : List Char) : List Char → Bool
  | [] => ciPre needle []
  | c :: rest => ciPre needle (c :: rest) || ciSub needle rest

/-- Part of Python str.partition(sep) / str.split(sep, 1): splits a list
at the first occurrence of the separator, none when the separator is
absent.  The first component is the part before the separator (which
therefore does not contain it), the second the part after it. -/
def splitAtFirst (sep : Char) : List Char → Option (List Char × List Char)
  | [] => none
  | c :: cs =>
    if c = sep then some ([], cs)
    else
      match splitAtFirst sep cs with
      | none => none
      | some (a, b) => some (c :: a, b)

/-- Python s.partition(sep)[2]: the part after the first occurrence of
the separator, empty when the separator is absent. -/
def pyPartitionAfter (sep : Char) (s : String) : String :=
  match splitAtFirst sep s.data with
  | none => ""
  | some (_, r) => ⟨r⟩

/-- Python caption.split("|", 2): at most one, two or three segments,
the last segment keeping any further separators. -/
def pySplit2 (sep : Char) (l : List Char) : List (List Char) :=
  match splitAtFirst sep l with
  | none => [l]
  | some (a, r) =>
    match splitAtFirst sep r with
    | none => [a, r]
    | some (b, r2) => [a, b, r2]

/-! ## SQL LIKE (src/main.py search_resources, lines 73-85)

`search_resources` runs `title LIKE '%q%' OR course_code LIKE '%q%' OR
department LIKE '%q%'`.  SQLite's LIKE treats '%' as "any sequence of
characters", '_' as "any single character", and compares other
characters ASCII-case-insensitively by default.  A '%' therefore matches
exactly when the rest of the pattern matches some suffix of the text. -/

/-- One-character comparison under SQLite LIKE (default ASCII folding). -/
def likeCharEq (a b : Char) : Bool := lowerAscii a = lowerAscii b

/-- SQLite LIKE pattern matching over character lists. -/
def likeMatch : List Char → List Char → Bool
  | [], s => s.isEmpty
  | p :: ps, s =>
    if p = '%' then s.tails.any (fun t => likeMatch ps t)
    else
      match s with
      | [] => false
      | c :: cs => (if p = '_' then true else likeCharEq p c) && likeMatch ps cs

/-- The pattern `f"%{q}%"` built by search_resources. -/
def likePattern (q : String) : List Char := '%' :: (q.data ++ ['%'])

/-- `field LIKE '%q%'` for one column value. -/
def likeContains (q field : String) : Bool :=
  likeMatch (likePattern q) field.data

/-! ## Resource store (src/main.py lines 42-93) -/

/-- One row of the `resources` table.  `uploaded_at` is modelled as a
Nat: the code stores `datetime.utcnow().isoformat()` strings, whose
lexicographic ORDER BY coincides with chronological order. -/
structure Row where
  id : Nat
  title : String
  filename : String
  course_code : String
  department : String
  uploader : String
  uploaded_at : Nat
deriving DecidableEq

/-- The projection returned by the SELECT of search_resources and
get_resource: `id, title, filename, course_code, department`. -/
structure Summary where
  id : Nat
  title : String
  filename : String
  course_code : String
  department : String
deriving DecidableEq

/-- The resources table: rows in insertion order plus the AUTOINCREMENT
counter for the next id. -/
structure DB where
  rows : List Row
  nextId : Nat
deriving DecidableEq

/-- The freshly created database (AUTOINCREMENT starts at 1). -/
def dbEmpty : DB := ⟨[], 1⟩

/-- Projection of a row to the five selected columns. -/
def summarize (r : Row) : Summary :=
  ⟨r.id, r.title, r.filename, r.course_code, r.department⟩

/-- src/main.py add_resource (lines 61-71): INSERT the six supplied
column values with the current timestamp and return the new rowid. -/
def add_resource (title filename course_code department uploader : String)
    (now : Nat) (db : DB) : Nat × DB :=
  let rid := db.nextId
  (rid, ⟨db.rows ++ [⟨rid, title, filename, course_code, department, uploader, now⟩],
         rid + 1⟩)

/-- The WHERE clause of search_resources: one of the three searchable
columns matches LIKE '%q%'. -/
def matchesQuery (q : String) (r : Row) : Bool :=
  likeContains q r.title || likeContains q r.course_code || likeContains q r.department

/-- Insertion step of the ORDER BY uploaded_at DESC sort. -/
def insertByUploadedDesc (r : Row) : List Row → List Row
  | [] => [r]
  | x :: xs =>
    if r.uploaded_at ≤ x.uploaded_at then x :: insertByUploadedDesc r xs
    else r :: x :: xs

/-- ORDER BY uploaded_at DESC, modelled as an insertion sort. -/
def sortByUploadedDesc (l : List Row) : List Row :=
  l.foldr insertByUploadedDesc []

/-- The rows selected by search_resources, before column projection:
filter by the WHERE clause, ORDER BY uploaded_at DESC, LIMIT. -/
def search_rows (q : String) (limit : Nat) (db : DB) : List Row :=
  (sortByUploadedDesc (db.rows.filter (matchesQuery q))).take limit

/-- src/main.py search_resources (lines 73-85). -/
def search_resources (q : String) (limit : Nat) (db : DB) : List Summary :=
  (search_rows q limit db).map summarize

/-- src/main.py get_resource (lines 87-93): SELECT ... WHERE id = ?.
The id comes from Python int() and may be negative, hence Int. -/
def get_resource (rid : Int) (db : DB) : Option Summary :=
  (db.rows.find? (fun r => (r.id : Int) == rid)).map summarize

/-- Timestamps strictly increase along the insertion order.  This is the
well-formedness the handlers maintain (each insert stores the current
time); the ORDER BY theorems assume it. -/
def sortedTimes (db : DB) : Prop :=
  db.rows.Pairwise (fun a b => a.uploaded_at < b.uploaded_at)

/-- Every stored id is below the AUTOINCREMENT counter; true of every
database reachable from dbEmpty through add_resource. -/
def sortedIds (db : DB) : Prop :=
  ∀ r ∈ db.rows, r.id < db.nextId

/-! ## Gemini response normalization (src/main.py lines 124-155) -/

/-- Decidable equality for Except, needed so that handler outcomes can
be compared by `decide` in concrete evaluations. -/
instance {ε α : Type} [DecidableEq ε] [DecidableEq α] : DecidableEq (Except ε α) := fun x y =>
  match x, y with
  | .ok a, .ok b => if h : a = b then .isTrue (by rw [h]) else .isFalse (by simp [h])
  | .error a, .error b => if h : a = b then .isTrue (by rw [h]) else .isFalse (by simp [h])
  | .ok _, .error _ => .isFalse (by simp)
  | .error _, .ok _ => .isFalse (by simp)

/-- One element of `response.candidates[0].content.parts`.  `text` is
`some s` when the part has a `text` attribute (hasattr) with value s,
none otherwise. -/
structure GeminiPart where
  text : Option String
deriving DecidableEq

/-- One element of `response.candidates`: the name of its finish reason
and the parts of its content. -/
structure GeminiCandidate where
  finish_reason : String
  parts : List GeminiPart
deriving DecidableEq

/-- The shape of a Gemini response as probed by the code.  `text` is
`.error ()` when the `response.text` accessor raises ValueError (blocked
response) and `.ok s` when it returns the string s (possibly empty, which
Python treats as falsy).  `block_reason` is `some name` when
`response.prompt_feedback.block_reason` exists and is truthy, none when
the attribute chain raises or the reason is falsy. -/
structure GeminiResponse where
  text : Except Unit String
  block_reason : Option String
  candidates : List GeminiCandidate
deriving DecidableEq

/-- The fixed fallback answer of _get_text_from_gemini_response. -/
def geminiFallback : String := "Sorry — Gemini returned an unreadable answer."

/-- The part of _get_text_from_gemini_response reached when the direct
text attempt yields nothing (lines 134-155): the prompt-feedback block
reason, then the first candidate (abnormal finish reason, else its
text-bearing parts), else the fixed fallback. -/
def geminiFeedbackExtract (br : Option String) (cs : List GeminiCandidate) : String :=
  match br with
  | some b => "Request blocked by Gemini: " ++ b
  | none =>
    match cs with
    | [] => geminiFallback
    | c :: _ =>
      if c.finish_reason ≠ "STOP" then "Generation stopped: " ++ c.finish_reason
      else
        let text_parts := c.parts.filterMap (fun p => p.text)
        if text_parts.isEmpty then geminiFallback
        else String.join text_parts

/-- src/main.py _get_text_from_gemini_response (lines 124-155): try the
direct text accessor (a raising accessor or an empty text falls
through), then the feedback cascade above. -/
def get_text_from_gemini_response (r : GeminiResponse) : String :=
  match r.text with
  | .ok t => if t ≠ "" then t else geminiFeedbackExtract r.block_reason r.candidates
  | .error _ => geminiFeedbackExtract r.block_reason r.candidates

/-- The provider response states named by the specification: direct
text, blocked prompt, abnormal stop of the first candidate, text
concatenated from the first candidate's parts, or nothing readable. -/
inductive GeminiOutcome where
  | direct (t : String)
  | blocked (reason : String)
  | abnormalStop (reason : String)
  | partsText (t : String)
  | unreadable
deriving DecidableEq

/-- Classification of a response that yields no direct text: blocked if
a block reason is present, else the first candidate's abnormal stop
reason, else the concatenation of its text-bearing parts when at least
one exists, else unreadable. -/
def classifyGeminiNoText (r : GeminiResponse) : GeminiOutcome :=
  match r.block_reason with
  | some br => .blocked br
  | none =>
    match r.candidates with
    | [] => .unreadable
    | c :: _ =>
      if c.finish_reason = "STOP" then
        match c.parts.filterMap (fun p => p.text) with
        | [] => .unreadable
        | t :: ts => .partsText (String.join (t :: ts))
      else .abnormalStop c.finish_reason

/-- Classification of a response into the spec's five states, following
the spec's order: direct text if present, otherwise the no-direct-text
cascade. -/
def classifyGemini (r : GeminiResponse) : GeminiOutcome :=
  match r.text with
  | .ok t =>
    if t = "" then classifyGeminiNoText r else .direct t
  | .error _ => classifyGeminiNoText r

/-- The user-visible message for each spec state. -/
def renderGeminiOutcome : GeminiOutcome → String
  | .direct t => t
  | .blocked reason => "Request blocked by Gemini: " ++ reason
  | .abnormalStop reason => "Generation stopped: " ++ reason
  | .partsText t => t
  | .unreadable => geminiFallback

/-! ## AI query adapter (src/main.py lines 158-184)

Each adapter wraps its whole body in try/except.  The remote call (and,
for the image query, the PIL decode before it) is modelled by an
`Except String GeminiResponse`: `.error e` is an exception with message
e raised anywhere inside the try block, `.ok r` a returned response. -/

/-- src/main.py gemini_text_query (lines 158-170). -/
def gemini_text_query (call : Except String GeminiResponse) : String :=
  match call with
  | .ok response => get_text_from_gemini_response response
  | .error e => "Error querying Gemini: " ++ e

/-- src/main.py gemini_image_query (lines 172-184): decode plus call,
one try/except around both. -/
def gemini_image_query (call : Except String GeminiResponse) : String :=
  match call with
  | .ok response => get_text_from_gemini_response response
  | .error e => "Error processing image: " ++ e

/-! ## Document upload handler (src/main.py lines 254-311) -/

/-- The fields of message.document used by the handler. -/
structure Document where
  file_size : Nat
  file_name : Option String
deriving DecidableEq

/-- The fields of an inbound document message used by the handler. -/
structure DocMessage where
  from_user_id : Int
  caption : Option String
  document : Document
deriving DecidableEq

/-- The configuration and the results of the handler's external calls:
the admin allowlist, the outcome of bot.get_file, of the requests.get
download, of the file write and of the database insert, and the current
integer time. -/
structure DocEnv where
  admin_ids : List Int
  get_file : Except String Unit
  download : Except String Unit
  write_result : Except String Unit
  insert_result : Except String Unit
  now : Nat
deriving DecidableEq

/-- What a run of handle_document leaves behind: the reply sent, the
database, and the names of the files in the upload directory. -/
structure UploadOutcome where
  reply : String
  db : DB
  files : List String
deriving DecidableEq

/-- Python Path(s).name modelled as the component after the last '/'
(the handler uses it only to strip directory components). -/
def pyPathName (s : String) : String :=
  ⟨(s.data.reverse.takeWhile (fun c => c ≠ '/')).reverse⟩

/-- Caption parsing of handle_document (src/main.py lines 285-294):
strip the caption (empty when absent); if it contains '|', split on '|'
into at most three segments and strip each, missing segments defaulting
to empty; otherwise use the caption, else the document file name, else
a generated resource_<time> name as title. -/
def parse_caption (caption : Option String) (file_name : Option String)
    (now : Nat) : String × String × String :=
  let c := pyStrip (caption.getD "")
  if '|' ∈ c.data then
    let parts := pySplit2 '|' c.data
    let title := pyStrip ⟨parts.getD 0 []⟩
    let course_code := if parts.length > 1 then pyStrip ⟨parts.getD 1 []⟩ else ""
    let department := if parts.length > 2 then pyStrip ⟨parts.getD 2 []⟩ else ""
    (title, course_code, department)
  else
    let title :=
      if c ≠ "" then c
      else
        match file_name with
        | some fn => if fn ≠ "" then fn else "resource_" ++ toString now
        | none => "resource_" ++ toString now
    (title, "", "")

/-- src/main.py handle_document (lines 254-311).  `.error` models an
exception escaping the handler (Path(None) raises TypeError when the
document has no file name); every other path replies and returns. -/
def handle_document (env : DocEnv) (msg : DocMessage) (db : DB)
    (files : List String) : Except String UploadOutcome :=
  if ¬ env.admin_ids.contains msg.from_user_id then
    .ok ⟨"Only admins may upload files. Ask an admin to upload.", db, files⟩
  else if msg.document.file_size > 20 * 1024 * 1024 then
    .ok ⟨"File is too large. The limit is 20MB.", db, files⟩
  else
    match env.get_file with
    | .error _ => .ok ⟨"Error getting file info from Telegram. Is the file valid?", db, files⟩
    | .ok _ =>
      match env.download with
      | .error e => .ok ⟨"Failed to download document from Telegram: " ++ e, db, files⟩
      | .ok _ =>
        let tcd := parse_caption msg.caption msg.document.file_name env.now
        match msg.document.file_name with
        | none => .error "TypeError: argument should be a str or an os.PathLike object"
        | some fn =>
          let safe_name := toString env.now ++ "_" ++ pyPathName fn
          match env.write_result with
          | .error e => .ok ⟨"Error saving file to server: " ++ e, db, files⟩
          | .ok _ =>
            match env.insert_result with
            | .error e => .ok ⟨"Error saving file metadata: " ++ e, db, files ++ [safe_name]⟩
            | .ok _ =>
              let db2 := (add_resource tcd.1 safe_name tcd.2.1 tcd.2.2
                (toString msg.from_user_id) env.now db).2
              .ok ⟨"Uploaded: " ++ tcd.1 ++ " (Course: "
                    ++ (if tcd.2.1 = "" then "N/A" else tcd.2.1) ++ ")",
                   db2, files ++ [safe_name]⟩

/-! ## Search command, free-text handler (src/main.py lines 212-226 and
340-359) -/

/-- One outbound chat message: plain text, or text with an inline
Download button carrying callback data. -/
inductive OutMsg where
  | plain (text : String)
  | withButton (text : String) (callback_data : String)
deriving DecidableEq

/-- What handle_text does with a message: reply with messages, or hand
the text to the AI adapter with the fixed assistant preamble. -/
inductive TextAction where
  | reply (msgs : List OutMsg)
  | askAI (prompt : String)
deriving DecidableEq

/-- The per-hit message text of cmd_search. -/
def searchHitText (r : Row) : String :=
  toString r.id ++ ". " ++ r.title ++ "\nCourse: "
    ++ (if r.course_code = "" then "N/A" else r.course_code)
    ++ "\nDept: " ++ (if r.department = "" then "N/A" else r.department)

/-- src/main.py cmd_search (lines 212-226): the query is the part of the
message text after the first space, stripped; empty query replies a
usage hint; otherwise search with limit 20 and send one message per hit
with a Download button carrying "get:<id>". -/
def cmd_search (text : String) (db : DB) : List OutMsg :=
  let args := pyStrip (pyPartitionAfter ' ' text)
  if args = "" then
    [.plain "Usage: /search <course name or code or department>"]
  else
    let rows := search_rows args 20 db
    if rows.isEmpty then [.plain "No matches found."]
    else rows.map (fun r => .withButton (searchHitText r) ("get:" ++ toString r.id))

/-- The plain listing of the free-text search path: one line per row,
id, title and filename, joined with newlines. -/
def searchListing (rows : List Row) : String :=
  String.intercalate "\n" (rows.map (fun r => toString r.id ++ ". " ++ r.title ++ " — " ++ r.filename))

/-- src/main.py handle_text (lines 340-359): a stripped message whose
lower casing starts with "search:" is a resource search (query = part
after the first ':', stripped; empty query replies a usage hint; search
with limit 10; reply one plain joined listing); anything else goes to
the AI adapter with the fixed assistant preamble. -/
def handle_text (text0 : String) (db : DB) : TextAction :=
  let text := pyStrip text0
  if litPre "search:".data (lowerStr text).data then
    let q := pyStrip (pyPartitionAfter ':' text)
    if q = "" then .reply [.plain "Usage: search: <query>"]
    else
      let rows := search_rows q 10 db
      if rows.isEmpty then .reply [.plain "No resources found."]
      else .reply [.plain (searchListing rows)]
  else
    .askAI ("You are a helpful assistant for Mekelle University students. Answer the following concisely and clearly:\n\n" ++ text)

/-! ## Download callback handler (src/main.py lines 228-251) -/

/-- Python int(s) for base 10: strip whitespace, optional sign, then a
nonempty run of ASCII digits in which single underscores may stand
between digits (Python also accepts non-ASCII decimal digits, which this
model omits). -/
def isPyDigit (c : Char) : Bool := '0' ≤ c && c ≤ '9'

/-- Valid continuation after a digit: digits, with single underscores
followed by a digit. -/
def pyIntTail : List Char → Bool
  | [] => true
  | '_' :: rest =>
    match rest with
    | [] => false
    | c :: rest2 => isPyDigit c && pyIntTail rest2
  | c :: rest => isPyDigit c && pyIntTail rest

/-- A valid unsigned body of a Python int literal string. -/
def pyIntBody (l : List Char) : Bool :=
  match l with
  | [] => false
  | c :: rest => isPyDigit c && pyIntTail rest

/-- Numeric value of a digit run (underscores removed beforehand). -/
def digitsValue (l : List Char) : Nat :=
  l.foldl (fun acc c => acc * 10 + (c.toNat - '0'.toNat)) 0

/-- Python int(s): none models a ValueError. -/
def pyParseInt (s : String) : Option Int :=
  match (pyStrip s).data with
  | '+' :: rest =>
    if pyIntBody rest then some (digitsValue (rest.filter (fun c => c ≠ '_'))) else none
  | '-' :: rest =>
    if pyIntBody rest then some (-(digitsValue (rest.filter (fun c => c ≠ '_')) : Int)) else none
  | l =>
    if pyIntBody l then some (digitsValue (l.filter (fun c => c ≠ '_'))) else none

/-- The externally visible effects of one run of handle_get_callback:
the answer_callback_query text, the ids looked up in the store, the
files opened, and whether a document was sent. -/
structure CallbackTrace where
  answer : String
  lookups : List Int
  opened : List String
  sent : Bool
deriving DecidableEq

/-- src/main.py handle_get_callback (lines 228-251): split the callback
data at the first ':', parse the rest as an int (failure answers
"Invalid id." with no further effect), look the id up (missing answers
"Resource not found."), check the blob exists (missing answers "File
missing on server."), then send the document; a send failure answers
"Error sending file.".  `files` is the upload directory listing and
`sendOk` the outcome of bot.send_document. -/
def handle_get_callback (data : String) (db : DB) (files : List String)
    (sendOk : Bool) : CallbackTrace :=
  let id_str := pyPartitionAfter ':' data
  match pyParseInt id_str with
  | none => ⟨"Invalid id.", [], [], false⟩
  | some rid =>
    match get_resource rid db with
    | none => ⟨"Resource not found.", [rid], [], false⟩
    | some row =>
      if files.contains row.filename then
        if sendOk then ⟨"Sent!", [rid], [row.filename], true⟩
        else ⟨"Error sending file.", [rid], [row.filename], false⟩
      else ⟨"File missing on server.", [rid], [], false⟩

/-! ## Lemmas about LIKE matching -/

theorem likeMatch_pct (s : List Char) : likeMatch ['%'] s = true := by
  show s.tails.any (fun t => likeMatch [] t) = true
  simp [List.any_eq_true, List.mem_tails, likeMatch]

theorem likeMatch_pct_cons (ps s : List Char) :
    likeMatch ('%' :: ps) s = true ↔ ∃ t, t <:+ s ∧ likeMatch ps t = true := by
  show s.tails.any (fun t => likeMatch ps t) = true ↔ _
  simp [List.any_eq_true, List.mem_tails]

theorem likeMatch_pct_pct (s : List Char) : likeMatch ['%', '%'] s = true := by
  rw [show (['%', '%'] : List Char) = '%' :: ['%'] from rfl, likeMatch_pct_cons]
  exact ⟨s, List.suffix_rfl, likeMatch_pct s⟩

theorem likeContains_empty (f : String) : likeContains "" f = true := by
  have hp : likePattern "" = ['%', '%'] := rfl
  rw [likeContains, hp]
  exact likeMatch_pct_pct f.data

theorem likeContains_pct (f : String) : likeContains "%" f = true := by
  have hp : likePattern "%" = '%' :: ['%', '%'] := rfl
  rw [likeContains, hp, likeMatch_pct_cons]
  exact ⟨f.data, List.suffix_rfl, likeMatch_pct_pct f.data⟩

theorem matchesQuery_empty (r : Row) : matchesQuery "" r = true := by
  simp [matchesQuery, likeContains_empty]

theorem matchesQuery_pct (r : Row) : matchesQuery "%" r = true := by
  simp [matchesQuery, likeContains_pct]

/-- A LIKE pattern made of plain characters followed by a final '%'
matches exactly the texts that start with those characters up to ASCII
case. -/
theorem likeMatch_plain_pct (p : List Char) (hp : ∀ c ∈ p, c ≠ '%' ∧ c ≠ '_') :
    ∀ s, likeMatch (p ++ ['%']) s = true ↔ ciPre p s = true := by
  induction p with
  | nil => intro s; simpa [ciPre] using likeMatch_pct s
  | cons a p ih =>
    intro s
    have ha := hp a (List.mem_cons_self a p)
    have hp' : ∀ c ∈ p, c ≠ '%' ∧ c ≠ '_' := fun c hc => hp c (List.mem_cons_of_mem a hc)
    cases s with
    | nil => simp [likeMatch, ciPre, ha.1]
    | cons c cs =>
      simp [likeMatch, ciPre, ha.1, ha.2, likeCharEq, ih hp' cs]

/-- The case-insensitive substring test holds exactly when some suffix
starts with the needle, up to ASCII case. -/
theorem ciSub_iff (nd : List Char) :
    ∀ s, ciSub nd s = true ↔ ∃ t, t <:+ s ∧ ciPre nd t = true := by
  intro s
  induction s with
  | nil => simp [ciSub]
  | cons c cs ih =>
    simp only [ciSub, Bool.or_eq_true, ih, List.suffix_cons_iff]
    constructor
    · rintro (h | ⟨t, ht, hm⟩)
      · exact ⟨c :: cs, Or.inl rfl, h⟩
      · exact ⟨t, Or.inr ht, hm⟩
    · rintro ⟨t, h | ht, hm⟩
      · exact Or.inl (h ▸ hm)
      · exact Or.inr ⟨t, ht, hm⟩

/-- For a query containing neither LIKE wildcard, `field LIKE '%q%'` is
exactly the case-insensitive substring test. -/
theorem likeContains_eq_ciSub (q f : String) (h1 : '%' ∉ q.data) (h2 : '_' ∉ q.data) :
    likeContains q f = ciSub q.data f.data := by
  have hp : ∀ c ∈ q.data, c ≠ '%' ∧ c ≠ '_' := by
    intro c hc
    exact ⟨fun h => h1 (h ▸ hc), fun h => h2 (h ▸ hc)⟩
  have hiff : likeContains q f = true ↔ ciSub q.data f.data = true := by
    rw [likeContains, likePattern, likeMatch_pct_cons, ciSub_iff]
    exact exists_congr fun t => and_congr_right fun _ => likeMatch_plain_pct q.data hp t
  cases hb : likeContains q f <;> cases hc : ciSub q.data f.data <;> simp_all

/-! ## Lemmas about the ORDER BY uploaded_at DESC sort -/

theorem insertByUploadedDesc_append (r : Row) (l : List Row)
    (h : ∀ x ∈ l, r.uploaded_at ≤ x.uploaded_at) :
    insertByUploadedDesc r l = l ++ [r] := by
  induction l with
  | nil => rfl
  | cons x xs ih =>
    rw [insertByUploadedDesc, if_pos (h x (List.mem_cons_self x xs))]
    rw [ih (fun y hy => h y (List.mem_cons_of_mem x hy))]
    rfl

/-- Sorting a list whose timestamps already strictly increase reverses
it. -/
theorem sortByUploadedDesc_of_sorted (l : List Row)
    (h : l.Pairwise (fun a b => a.uploaded_at < b.uploaded_at)) :
    sortByUploadedDesc l = l.reverse := by
  induction l with
  | nil => rfl
  | cons x xs ih =>
    have hx : ∀ y ∈ xs, x.uploaded_at ≤ y.uploaded_at := by
      intro y hy
      exact Nat.le_of_lt ((List.pairwise_cons.mp h).1 y hy)
    have hxs := (List.pairwise_cons.mp h).2
    show insertByUploadedDesc x (sortByUploadedDesc xs) = (x :: xs).reverse
    rw [ih hxs, insertByUploadedDesc_append x xs.reverse (by simpa using hx)]
    simp

/-- Under the timestamp invariant the rows selected by a search are the
reversed filtered insertion order, truncated to the limit. -/
theorem search_rows_eq (q : String) (n : Nat) (db : DB) (h : sortedTimes db) :
    search_rows q n db = ((db.rows.filter (matchesQuery q)).reverse).take n := by
  rw [search_rows, sortByUploadedDesc_of_sorted _ (h.filter _)]

/-! ## Claim C1 -/

/-- C1 is false as stated: search_resources("%", n) returns a row none
of whose searchable fields contains "%" as a substring, because the
query is pasted unescaped into the LIKE pattern. -/
theorem search_substring_counterexample :
    search_resources "%" 5 ⟨[⟨1, "abc", "f.pdf", "", "", "9", 1⟩], 2⟩
      = [⟨1, "abc", "f.pdf", "", ""⟩]
    ∧ litSub "%".data "abc".data = false
    ∧ litSub "%".data "".data = false := by
  refine ⟨by decide, by decide, by decide⟩

/-- C1 (amended): for every query q and limit n, under the invariant
that stored timestamps strictly increase in insertion order, the search
returns at most n rows ordered by uploaded_at descending; and when q
contains neither LIKE wildcard '%' nor '_', every returned row contains
q as an ASCII-case-insensitive substring of its title, course_code or
department. -/
theorem search_resources_spec (q : String) (n : Nat) (db : DB)
    (hdb : sortedTimes db) :
    (search_resources q n db).length ≤ n
    ∧ (search_rows q n db).Pairwise (fun a b => b.uploaded_at < a.uploaded_at)
    ∧ ('%' ∉ q.data → '_' ∉ q.data →
        ∀ r ∈ search_rows q n db,
          (ciSub q.data r.title.data || ciSub q.data r.course_code.data
            || ciSub q.data r.department.data) = true) := by
  refine ⟨?_, ?_, ?_⟩
  · rw [search_resources, List.length_map, search_rows]
    exact List.length_take_le _ _
  · rw [search_rows_eq q n db hdb]
    exact List.Pairwise.sublist (List.take_sublist _ _)
      (List.pairwise_reverse.mpr (hdb.filter _))
  · intro h1 h2 r hr
    rw [search_rows_eq q n db hdb] at hr
    have hr2 : r ∈ db.rows.filter (matchesQuery q) := by
      have := (List.take_sublist _ _).subset hr
      simpa using this
    have hm : matchesQuery q r = true := (List.mem_filter.mp hr2).2
    rw [matchesQuery, likeContains_eq_ciSub q r.title h1 h2,
      likeContains_eq_ciSub q r.course_code h1 h2,
      likeContains_eq_ciSub q r.department h1 h2] at hm
    exact hm

/-- Concrete instance of the amended C1: on a one-row store, the length
bound holds for the wildcard query "a%b" too, and for the wildcard-free
query "ab" the row matching the title "xABy" up to case satisfies the
substring condition. -/
theorem search_resources_spec_witness :
    sortedTimes ⟨[⟨1, "xABy", "f", "", "", "u", 1⟩], 2⟩
    ∧ (search_resources "a%b" 3 ⟨[⟨1, "xABy", "f", "", "", "u", 1⟩], 2⟩).length ≤ 3
    ∧ (search_resources "ab" 3 ⟨[⟨1, "xABy", "f", "", "", "u", 1⟩], 2⟩).length ≤ 3
    ∧ ∀ r ∈ search_rows "ab" 3 ⟨[⟨1, "xABy", "f", "", "", "u", 1⟩], 2⟩,
        (ciSub "ab".data r.title.data || ciSub "ab".data r.course_code.data
          || ciSub "ab".data r.department.data) = true := by
  have hst : sortedTimes ⟨[⟨1, "xABy", "f", "", "", "u", 1⟩], 2⟩ := by
    simp [sortedTimes]
  have hpct := search_resources_spec "a%b" 3 ⟨[⟨1, "xABy", "f", "", "", "u", 1⟩], 2⟩ hst
  have h := search_resources_spec "ab" 3 ⟨[⟨1, "xABy", "f", "", "", "u", 1⟩], 2⟩ hst
  exact ⟨hst, hpct.1, h.1, h.2.2 (by decide) (by decide)⟩

/-! ## Claim C8 -/

/-- C8: the empty query matches every stored row, and search with the
empty query and limit n returns the n most recently inserted resources
(all of them when fewer than n exist), newest first. -/
theorem search_empty_query_recent (n : Nat) (db : DB) (h : sortedTimes db) :
    search_resources "" n db = (db.rows.reverse.take n).map summarize
    ∧ (search_resources "" n db).length = min n db.rows.length
    ∧ ∀ r ∈ db.rows, matchesQuery "" r = true := by
  have hfilter : db.rows.filter (matchesQuery "") = db.rows :=
    List.filter_eq_self.mpr fun a _ => matchesQuery_empty a
  have hs : search_rows "" n db = db.rows.reverse.take n := by
    rw [search_rows_eq "" n db h, hfilter]
  refine ⟨?_, ?_, fun r _ => matchesQuery_empty r⟩
  · rw [search_resources, hs]
  · rw [search_resources, hs]; simp

/-- Concrete instance of C8: of two stored rows the later one is the
single result of search("", 1). -/
theorem search_empty_query_recent_witness :
    sortedTimes ⟨[⟨1, "a", "f1", "", "", "u", 1⟩, ⟨2, "b", "f2", "", "", "u", 2⟩], 3⟩
    ∧ search_resources "" 1 ⟨[⟨1, "a", "f1", "", "", "u", 1⟩, ⟨2, "b", "f2", "", "", "u", 2⟩], 3⟩
        = (((⟨[⟨1, "a", "f1", "", "", "u", 1⟩, ⟨2, "b", "f2", "", "", "u", 2⟩], 3⟩ : DB)).rows.reverse.take 1).map summarize := by
  have hst : sortedTimes ⟨[⟨1, "a", "f1", "", "", "u", 1⟩, ⟨2, "b", "f2", "", "", "u", 2⟩], 3⟩ := by
    simp [sortedTimes]
  exact ⟨hst, (search_empty_query_recent 1 _ hst).1⟩

/-! ## Claim C9 -/

/-- C9: '%' in the query is a LIKE wildcard, not a literal character:
every row matches the query "%", a search for "%" coincides with a
search for the empty query on every store and limit, and "%" is not a
literal substring of fields such as the title "abc". -/
theorem percent_query_is_wildcard :
    (∀ r : Row, matchesQuery "%" r = true)
    ∧ (∀ (db : DB) (n : Nat), search_resources "%" n db = search_resources "" n db)
    ∧ litSub "%".data "abc".data = false := by
  refine ⟨matchesQuery_pct, fun db n => ?_, by decide⟩
  have hfc : db.rows.filter (matchesQuery "%") = db.rows.filter (matchesQuery "") :=
    List.filter_congr fun a _ => by simp [matchesQuery_pct, matchesQuery_empty]
  rw [search_resources, search_resources, search_rows, search_rows, hfc]

/-! ## Claim C2 -/

/-- Rows whose id differs from the searched id do not affect a lookup
appended after them. -/
theorem find_id_skip (rows l2 : List Row) (nid : Nat)
    (hne : ∀ r ∈ rows, r.id ≠ nid) :
    (rows ++ l2).find? (fun r => (r.id : Int) == ((nid : Nat) : Int))
      = l2.find? (fun r => (r.id : Int) == ((nid : Nat) : Int)) := by
  rw [List.find?_append]
  have hnone : rows.find? (fun r => (r.id : Int) == ((nid : Nat) : Int)) = none := by
    rw [List.find?_eq_none]
    intro x hx
    simp only [beq_iff_eq, Int.natCast_inj]
    exact hne x hx
  rw [hnone, Option.none_or]

/-- C2: the id returned by add_resource is retrieved by get_resource
with exactly the provided field values, the retrieval survives a
further insert, and the id of the next sequential insert is strictly
greater. -/
theorem add_get_roundtrip (db : DB) (hdb : sortedIds db)
    (t f cc dep up : String) (now : Nat) :
    get_resource ((add_resource t f cc dep up now db).1 : Int)
        (add_resource t f cc dep up now db).2
      = some ⟨(add_resource t f cc dep up now db).1, t, f, cc, dep⟩
    ∧ ∀ t2 f2 cc2 dep2 up2 : String, ∀ now2 : Nat,
        (add_resource t f cc dep up now db).1
            < (add_resource t2 f2 cc2 dep2 up2 now2 (add_resource t f cc dep up now db).2).1
        ∧ get_resource ((add_resource t f cc dep up now db).1 : Int)
              (add_resource t2 f2 cc2 dep2 up2 now2 (add_resource t f cc dep up now db).2).2
            = some ⟨(add_resource t f cc dep up now db).1, t, f, cc, dep⟩ := by
  have hne : ∀ r ∈ db.rows, r.id ≠ db.nextId := fun r hr => Nat.ne_of_lt (hdb r hr)
  constructor
  · simp only [add_resource, get_resource]
    rw [find_id_skip db.rows _ db.nextId hne]
    simp [List.find?, summarize]
  · intro t2 f2 cc2 dep2 up2 now2
    refine ⟨Nat.lt_succ_self _, ?_⟩
    simp only [add_resource, get_resource]
    rw [List.append_assoc, find_id_skip db.rows _ db.nextId hne]
    simp [List.find?, summarize]

/-- Concrete instance of C2: inserting into the empty store yields id 1,
which get_resource resolves to the inserted fields. -/
theorem add_get_roundtrip_witness :
    get_resource ((add_resource "T" "F" "C" "D" "U" 5 dbEmpty).1 : Int)
        (add_resource "T" "F" "C" "D" "U" 5 dbEmpty).2
      = some ⟨(add_resource "T" "F" "C" "D" "U" 5 dbEmpty).1, "T", "F", "C", "D"⟩
    ∧ (add_resource "T" "F" "C" "D" "U" 5 dbEmpty).1
        < (add_resource "X" "Y" "" "" "V" 6 (add_resource "T" "F" "C" "D" "U" 5 dbEmpty).2).1 := by
  have hids : sortedIds dbEmpty := fun r hr => by cases hr
  have h := add_get_roundtrip dbEmpty hids "T" "F" "C" "D" "U" 5
  exact ⟨h.1, (h.2 "X" "Y" "" "" "V" 6).1⟩

/-! ## Claim C3 -/

/-- The feedback cascade computes the message of the spec's
classification of a no-direct-text response. -/
theorem geminiFeedbackExtract_render (tx : Except Unit String) (br : Option String)
    (cs : List GeminiCandidate) :
    geminiFeedbackExtract br cs = renderGeminiOutcome (classifyGeminiNoText ⟨tx, br, cs⟩) := by
  cases br with
  | some b => rfl
  | none =>
    cases cs with
    | nil => rfl
    | cons c rest =>
      by_cases hf : c.finish_reason = "STOP"
      · cases hp : c.parts.filterMap (fun p => p.text) with
        | nil => simp [geminiFeedbackExtract, classifyGeminiNoText, renderGeminiOutcome, hf, hp]
        | cons a as => simp [geminiFeedbackExtract, classifyGeminiNoText, renderGeminiOutcome, hf, hp]
      · simp [geminiFeedbackExtract, classifyGeminiNoText, renderGeminiOutcome, hf]

/-- C3: the extraction function realizes exactly the spec's ordered
cascade — direct text if present, else block reason, else the first
candidate's abnormal stop reason, else the concatenation of its
text-bearing parts, else the fixed fallback string. -/
theorem gemini_extraction_order (r : GeminiResponse) :
    get_text_from_gemini_response r = renderGeminiOutcome (classifyGemini r) := by
  obtain ⟨tx, br, cs⟩ := r
  cases tx with
  | error u =>
    simpa [get_text_from_gemini_response, classifyGemini]
      using geminiFeedbackExtract_render (.error u) br cs
  | ok t =>
    by_cases ht : t = ""
    · subst ht
      simpa [get_text_from_gemini_response, classifyGemini]
        using geminiFeedbackExtract_render (.ok "") br cs
    · simp [get_text_from_gemini_response, classifyGemini, ht, renderGeminiOutcome]

/-! ## Claim C4 -/

theorem litPre_append (p t : List Char) : litPre p (p ++ t) = true := by
  induction p with
  | nil => rfl
  | cons a p ih => simp [litPre, ih]

/-- C4 is false as stated: the image adapter's error reply does not
begin with "Error querying", so no instantiation of the claimed
"Error querying <service>:" prefix fits it. -/
theorem image_error_prefix_counterexample :
    gemini_image_query (.error "boom") = "Error processing image: boom"
    ∧ litPre "Error querying".data (gemini_image_query (.error "boom")).data = false :=
  ⟨rfl, by decide⟩

/-- C4 (amended): an exception in the text adapter yields the string
"Error querying Gemini: <e>" and one in the image adapter the string
"Error processing image: <e>"; both adapters return a string for every
exception instead of propagating it. -/
theorem adapter_error_strings (e : String) :
    gemini_text_query (.error e) = "Error querying Gemini: " ++ e
    ∧ gemini_image_query (.error e) = "Error processing image: " ++ e
    ∧ litPre "Error querying Gemini: ".data (gemini_text_query (.error e)).data = true
    ∧ litPre "Error processing image: ".data (gemini_image_query (.error e)).data = true := by
  refine ⟨rfl, rfl, ?_, ?_⟩
  · show litPre "Error querying Gemini: ".data ("Error querying Gemini: " ++ e).data = true
    rw [String.data_append]
    exact litPre_append _ _
  · show litPre "Error processing image: ".data ("Error processing image: " ++ e).data = true
    rw [String.data_append]
    exact litPre_append _ _

/-! ## Claim C5 -/

/-- C5: a document from a sender outside the admin allowlist is answered
with the permission message and leaves both the resource store and the
upload directory untouched. -/
theorem non_admin_upload_no_effect (env : DocEnv) (msg : DocMessage) (db : DB)
    (files : List String) (h : env.admin_ids.contains msg.from_user_id = false) :
    handle_document env msg db files
      = .ok ⟨"Only admins may upload files. Ask an admin to upload.", db, files⟩ := by
  have helem : List.elem msg.from_user_id env.admin_ids = false := h
  have hmem : msg.from_user_id ∉ env.admin_ids := fun hm => by
    rw [List.elem_eq_true_of_mem hm] at helem
    cases helem
  rw [handle_document]
  simp [h, hmem]

/-- Concrete instance of C5: user 2 uploading under allowlist {1}. -/
theorem non_admin_upload_no_effect_witness :
    handle_document ⟨[(1 : Int)], .ok (), .ok (), .ok (), .ok (), 0⟩
        ⟨2, some "cap", ⟨100, some "a.pdf"⟩⟩ dbEmpty []
      = .ok ⟨"Only admins may upload files. Ask an admin to upload.", dbEmpty, []⟩ :=
  non_admin_upload_no_effect _ _ _ _ (by decide)

/-! ## Claim C6 -/

/-- A list on which the whitespace dropWhile is a no-op stays a no-op
when a non-whitespace character and anything further is appended. -/
theorem dropWhile_keep_append (x : Char) (hx : isPySpace x = false) (a m : List Char)
    (h : a.dropWhile isPySpace = a) :
    (a ++ x :: m).dropWhile isPySpace = a ++ x :: m := by
  cases a with
  | nil =>
    simp only [List.nil_append]
    rw [List.dropWhile_cons, if_neg (by simp [hx])]
  | cons y ys =>
    have hy : isPySpace y = false := by
      cases hyv : isPySpace y with
      | false => rfl
      | true =>
        exfalso
        rw [List.dropWhile_cons, if_pos hyv] at h
        have hle : (ys.dropWhile isPySpace).length ≤ ys.length :=
          (List.dropWhile_sublist _).length_le
        rw [h] at hle
        simp at hle
    rw [List.cons_append, List.dropWhile_cons, if_neg (by simp [hy])]

/-- A strip fixpoint is a fixpoint of each directional pass. -/
theorem pyStrip_fix_parts (q : String) (h : pyStrip q = q) :
    q.data.dropWhile isPySpace = q.data
    ∧ q.data.reverse.dropWhile isPySpace = q.data.reverse := by
  have hl : pyStripL q.data = q.data := congrArg String.data h
  have hlead : q.data.dropWhile isPySpace = q.data := by
    apply (List.dropWhile_sublist _).eq_of_length
    have h2 : (pyStripL q.data).length ≤ (q.data.dropWhile isPySpace).length := by
      rw [pyStripL, dropTrail, dropLead, List.length_reverse]
      exact le_trans ((List.dropWhile_sublist _).length_le)
        (le_of_eq (List.length_reverse _))
    rw [hl] at h2
    have h1 : (q.data.dropWhile isPySpace).length ≤ q.data.length :=
      (List.dropWhile_sublist _).length_le
    omega
  refine ⟨hlead, ?_⟩
  have htrail : dropTrail q.data = q.data := by
    have hsplit : pyStripL q.data = dropTrail q.data := by
      rw [pyStripL, dropLead, hlead]
    rw [← hsplit, hl]
  have hrev := congrArg List.reverse htrail
  rw [dropTrail, List.reverse_reverse] at hrev
  exact hrev

/-- A list that starts and ends with non-whitespace characters is a
strip fixpoint. -/
theorem pyStripL_of_ends (l : List Char)
    (h1 : l.dropWhile isPySpace = l)
    (h2 : l.reverse.dropWhile isPySpace = l.reverse) :
    pyStripL l = l := by
  rw [pyStripL, dropLead, h1, dropTrail, h2, List.reverse_reverse]

theorem splitAtFirst_not_mem (sep : Char) (l : List Char) (h : sep ∉ l) :
    splitAtFirst sep l = none := by
  induction l with
  | nil => rfl
  | cons x xs ih =>
    have hx : ¬ x = sep := fun hx => h (by rw [hx]; exact List.mem_cons_self _ _)
    have hxs : sep ∉ xs := fun hxs => h (List.mem_cons_of_mem x hxs)
    rw [splitAtFirst, if_neg hx, ih hxs]

theorem splitAtFirst_append (sep : Char) (a m : List Char) (h : sep ∉ a) :
    splitAtFirst sep (a ++ sep :: m) = some (a, m) := by
  induction a with
  | nil => simp [splitAtFirst]
  | cons x xs ih =>
    have hx : ¬ x = sep := fun hx => h (by rw [hx]; exact List.mem_cons_self _ _)
    have hxs : sep ∉ xs := fun hxs => h (List.mem_cons_of_mem x hxs)
    rw [List.cons_append, splitAtFirst, if_neg hx, ih hxs]

theorem pySplit2_two (sep : Char) (a b m : List Char) (ha : sep ∉ a) (hb : sep ∉ b) :
    pySplit2 sep (a ++ sep :: (b ++ sep :: m)) = [a, b, m] := by
  simp only [pySplit2, splitAtFirst_append sep a (b ++ sep :: m) ha,
    splitAtFirst_append sep b m hb]

theorem pySplit2_one (sep : Char) (a b : List Char) (ha : sep ∉ a) (hb : sep ∉ b) :
    pySplit2 sep (a ++ sep :: b) = [a, b] := by
  simp only [pySplit2, splitAtFirst_append sep a b ha, splitAtFirst_not_mem sep b hb]

/-- Leading whitespace removal passes over an appended part that starts
with a non-whitespace character. -/
theorem dropWhile_append_cons (x : Char) (hx : isPySpace x = false) (a m : List Char) :
    (a ++ x :: m).dropWhile isPySpace = a.dropWhile isPySpace ++ x :: m := by
  rw [List.dropWhile_append]
  by_cases h : (a.dropWhile isPySpace).isEmpty
  · rw [if_pos h]
    have h0 : a.dropWhile isPySpace = [] := by simpa using h
    rw [h0, List.nil_append, List.dropWhile_cons, if_neg (by simp [hx])]
  · rw [if_neg h]

theorem dropWhile_space_idem (l : List Char) :
    (l.dropWhile isPySpace).dropWhile isPySpace = l.dropWhile isPySpace := by
  induction l with
  | nil => rfl
  | cons x xs ih =>
    rw [List.dropWhile_cons]
    by_cases hx : isPySpace x = true
    · rw [if_pos hx]
      exact ih
    · rw [if_neg hx, List.dropWhile_cons, if_neg hx]

/-- Trailing whitespace removal passes over a prepended part that ends
before a non-whitespace character. -/
theorem dropTrail_append_cons (x : Char) (hx : isPySpace x = false) (a m : List Char) :
    dropTrail (a ++ x :: m) = a ++ x :: dropTrail m := by
  rw [dropTrail, show (a ++ x :: m).reverse = m.reverse ++ x :: a.reverse from by
      simp [List.reverse_append, List.append_assoc],
    dropWhile_append_cons x hx m.reverse a.reverse]
  simp [dropTrail, List.reverse_append, List.reverse_cons, List.append_assoc]

theorem dropTrail_eq_nil_iff (l : List Char) :
    dropTrail l = [] ↔ ∀ y ∈ l, isPySpace y = true := by
  rw [dropTrail]
  constructor
  · intro h y hy
    have h0 : l.reverse.dropWhile isPySpace = [] := by
      have := congrArg List.reverse h
      simpa using this
    exact List.dropWhile_eq_nil_iff.mp h0 y (List.mem_reverse.mpr hy)
  · intro h
    have h0 : l.reverse.dropWhile isPySpace = [] :=
      List.dropWhile_eq_nil_iff.mpr fun y hy => h y (List.mem_reverse.mp hy)
    rw [h0]
    rfl

theorem dropTrail_cons_of_ne (x : Char) (xs : List Char) (h : dropTrail xs ≠ []) :
    dropTrail (x :: xs) = x :: dropTrail xs := by
  have hrev : xs.reverse.dropWhile isPySpace ≠ [] := by
    intro h0
    apply h
    rw [dropTrail, h0]
    rfl
  rw [dropTrail, show (x :: xs).reverse = xs.reverse ++ [x] from by simp,
    List.dropWhile_append, if_neg (by simp [hrev])]
  simp [dropTrail, List.reverse_append]

theorem dropTrail_idem (l : List Char) : dropTrail (dropTrail l) = dropTrail l := by
  rw [dropTrail, dropTrail, List.reverse_reverse, dropWhile_space_idem]

/-- The two directional whitespace strips commute. -/
theorem dropLead_dropTrail_comm (l : List Char) :
    dropLead (dropTrail l) = dropTrail (dropLead l) := by
  induction l with
  | nil => rfl
  | cons x xs ih =>
    by_cases hx : isPySpace x = true
    · have hLead : dropLead (x :: xs) = dropLead xs := by
        rw [dropLead, List.dropWhile_cons, if_pos hx]
        rfl
      by_cases hall : dropTrail xs = []
      · have hxsall : ∀ y ∈ xs, isPySpace y = true := (dropTrail_eq_nil_iff xs).mp hall
        have hTrail : dropTrail (x :: xs) = [] := by
          rw [dropTrail_eq_nil_iff]
          intro y hy
          rcases List.mem_cons.mp hy with h | h
          · rw [h]; exact hx
          · exact hxsall y h
        have hLeadxs : dropLead xs = [] := by
          rw [dropLead, List.dropWhile_eq_nil_iff]
          exact hxsall
        rw [hTrail, hLead, hLeadxs]
        rfl
      · rw [dropTrail_cons_of_ne x xs hall, hLead]
        rw [dropLead, List.dropWhile_cons, if_pos hx]
        exact ih
    · have hLead : dropLead (x :: xs) = x :: xs := by
        rw [dropLead, List.dropWhile_cons, if_neg hx]
      by_cases hall : dropTrail xs = []
      · have hxsall : ∀ y ∈ xs, isPySpace y = true := (dropTrail_eq_nil_iff xs).mp hall
        have hTrail : dropTrail (x :: xs) = [x] := by
          rw [dropTrail, show (x :: xs).reverse = xs.reverse ++ [x] from by simp,
            List.dropWhile_append]
          have h0 : xs.reverse.dropWhile isPySpace = [] :=
            List.dropWhile_eq_nil_iff.mpr fun y hy => hxsall y (List.mem_reverse.mp hy)
          rw [h0]
          simp [List.dropWhile_cons, hx]
        rw [hTrail, hLead, hTrail, dropLead, List.dropWhile_cons, if_neg hx]
      · rw [dropTrail_cons_of_ne x xs hall, hLead, dropTrail_cons_of_ne x xs hall,
          dropLead, List.dropWhile_cons, if_neg hx]

theorem pyStripL_dropLead (l : List Char) : pyStripL (dropLead l) = pyStripL l := by
  rw [pyStripL, pyStripL, dropLead, dropLead, dropWhile_space_idem]

theorem pyStripL_dropTrail (l : List Char) : pyStripL (dropTrail l) = pyStripL l := by
  rw [pyStripL, pyStripL, dropLead_dropTrail_comm, dropTrail_idem]

theorem dropTrail_sublist (l : List Char) : List.Sublist (dropTrail l) l := by
  rw [dropTrail]
  have h := (List.dropWhile_sublist (l := l.reverse) isPySpace).reverse
  rwa [List.reverse_reverse] at h

theorem pyStripL_sublist (l : List Char) : List.Sublist (pyStripL l) l :=
  (dropTrail_sublist _).trans (List.dropWhile_sublist _)

/-- C6: for every caption of the form title|code|department (the first
two segments pipe-free, the third keeping any further pipes, all three
otherwise arbitrary), parsing yields the three stripped segments; a
two-segment caption leaves the department empty; for every caption
without a pipe, the stripped caption becomes the title when non-empty,
else the file name when present and non-empty, else the generated
resource_<time> name, with empty code and department. -/
theorem caption_parsing (a b c : String) (fn : Option String) (now : Nat)
    (hap : '|' ∉ a.data) (hbp : '|' ∉ b.data) :
    parse_caption (some (a ++ "|" ++ b ++ "|" ++ c)) fn now
      = (pyStrip a, pyStrip b, pyStrip c)
    ∧ parse_caption (some (a ++ "|" ++ b)) fn now = (pyStrip a, pyStrip b, "")
    ∧ (pyStrip a ≠ "" → parse_caption (some a) fn now = (pyStrip a, "", ""))
    ∧ (pyStrip a = "" → ∀ f : String, f ≠ "" →
        parse_caption (some a) (some f) now = (f, "", ""))
    ∧ (pyStrip a = "" → parse_caption (some a) none now
        = ("resource_" ++ toString now, "", "")) := by
  have hpipe : ("|" : String).data = ['|'] := by decide
  have hapL : '|' ∉ dropLead a.data := fun h => hap ((List.dropWhile_sublist _).subset h)
  have comp1 : pyStrip ⟨dropLead a.data⟩ = pyStrip a :=
    congrArg (fun l => (⟨l⟩ : String)) (pyStripL_dropLead a.data)
  have comp2 : pyStrip (⟨b.data⟩ : String) = pyStrip b := rfl
  refine ⟨?_, ?_, ?_, ?_, ?_⟩
  · have d1 : (a ++ "|" ++ b ++ "|" ++ c).data
        = a.data ++ '|' :: (b.data ++ '|' :: c.data) := by
      simp [hpipe, List.append_assoc]
    have hstrip1 : pyStripL (a.data ++ '|' :: (b.data ++ '|' :: c.data))
        = dropLead a.data ++ '|' :: (b.data ++ '|' :: dropTrail c.data) := by
      rw [pyStripL]
      have e1 : dropLead (a.data ++ '|' :: (b.data ++ '|' :: c.data))
          = dropLead a.data ++ '|' :: (b.data ++ '|' :: c.data) := by
        rw [dropLead, dropLead, dropWhile_append_cons '|' (by decide)]
      rw [e1, dropTrail_append_cons '|' (by decide),
        dropTrail_append_cons '|' (by decide)]
    have sX : pyStrip (a ++ "|" ++ b ++ "|" ++ c)
        = ⟨dropLead a.data ++ '|' :: (b.data ++ '|' :: dropTrail c.data)⟩ := by
      show (⟨pyStripL (a ++ "|" ++ b ++ "|" ++ c).data⟩ : String) = _
      rw [d1, hstrip1]
    have hdataX : (⟨dropLead a.data ++ '|' :: (b.data ++ '|' :: dropTrail c.data)⟩
        : String).data = dropLead a.data ++ '|' :: (b.data ++ '|' :: dropTrail c.data) := rfl
    have hmem : '|' ∈ dropLead a.data ++ '|' :: (b.data ++ '|' :: dropTrail c.data) :=
      List.mem_append_right _ (List.mem_cons_self _ _)
    have comp3 : pyStrip ⟨dropTrail c.data⟩ = pyStrip c :=
      congrArg (fun l => (⟨l⟩ : String)) (pyStripL_dropTrail c.data)
    rw [parse_caption.eq_def]
    simp only [Option.getD_some]
    rw [sX, hdataX, if_pos hmem,
      pySplit2_two '|' (dropLead a.data) b.data (dropTrail c.data) hapL hbp]
    simp [List.getD, comp1, comp2, comp3]
  · have d2 : (a ++ "|" ++ b).data = a.data ++ '|' :: b.data := by
      simp [hpipe, List.append_assoc]
    have hstrip2 : pyStripL (a.data ++ '|' :: b.data)
        = dropLead a.data ++ '|' :: dropTrail b.data := by
      rw [pyStripL]
      have e1 : dropLead (a.data ++ '|' :: b.data)
          = dropLead a.data ++ '|' :: b.data := by
        rw [dropLead, dropLead, dropWhile_append_cons '|' (by decide)]
      rw [e1, dropTrail_append_cons '|' (by decide)]
    have sX : pyStrip (a ++ "|" ++ b) = ⟨dropLead a.data ++ '|' :: dropTrail b.data⟩ := by
      show (⟨pyStripL (a ++ "|" ++ b).data⟩ : String) = _
      rw [d2, hstrip2]
    have hdataX : (⟨dropLead a.data ++ '|' :: dropTrail b.data⟩ : String).data
        = dropLead a.data ++ '|' :: dropTrail b.data := rfl
    have hmem : '|' ∈ dropLead a.data ++ '|' :: dropTrail b.data :=
      List.mem_append_right _ (List.mem_cons_self _ _)
    have hbpT : '|' ∉ dropTrail b.data := fun h => hbp ((dropTrail_sublist _).subset h)
    have compB : pyStrip ⟨dropTrail b.data⟩ = pyStrip b :=
      congrArg (fun l => (⟨l⟩ : String)) (pyStripL_dropTrail b.data)
    rw [parse_caption.eq_def]
    simp only [Option.getD_some]
    rw [sX, hdataX, if_pos hmem,
      pySplit2_one '|' (dropLead a.data) (dropTrail b.data) hapL hbpT]
    simp [List.getD, comp1, compB]
  · intro hne
    have hpf : '|' ∉ (pyStrip a).data := fun h => hap ((pyStripL_sublist a.data).subset h)
    rw [parse_caption.eq_def]
    simp only [Option.getD_some]
    rw [if_neg hpf]
    simp [hne]
  · intro h0 f hf
    rw [parse_caption.eq_def]
    simp only [Option.getD_some]
    rw [h0, if_neg (show ¬ ('|' ∈ ("" : String).data) from by decide)]
    simp [hf]
  · intro h0
    rw [parse_caption.eq_def]
    simp only [Option.getD_some]
    rw [h0, if_neg (show ¬ ('|' ∈ ("" : String).data) from by decide)]
    simp

/-- Concrete instances of C6 through the theorem: the spec's example
caption, and the same caption with whitespace around every segment,
showing each segment is trimmed. -/
theorem caption_parsing_witness :
    parse_caption (some ("Algebra Midterm" ++ "|" ++ "MATH201" ++ "|" ++ "Mathematics")) none 0
      = ("Algebra Midterm", "MATH201", "Mathematics")
    ∧ parse_caption (some (" Algebra Midterm " ++ "|" ++ " MATH201 " ++ "|" ++ " Mathematics ")) none 0
      = ("Algebra Midterm", "MATH201", "Mathematics") := by
  constructor
  · have h := (caption_parsing "Algebra Midterm" "MATH201" "Mathematics" none 0
      (by decide) (by decide)).1
    rw [h]
    decide
  · have h := (caption_parsing " Algebra Midterm " " MATH201 " " Mathematics " none 0
      (by decide) (by decide)).1
    rw [h]
    decide

/-! ## Claim C7 -/

/-- The head of a whitespace-dropWhile fixpoint is not whitespace. -/
theorem head_not_space_of_fix (y : Char) (ys : List Char)
    (h : (y :: ys).dropWhile isPySpace = y :: ys) : isPySpace y = false := by
  cases hyv : isPySpace y with
  | false => rfl
  | true =>
    exfalso
    rw [List.dropWhile_cons, if_pos hyv] at h
    have hle : (ys.dropWhile isPySpace).length ≤ ys.length :=
      (List.dropWhile_sublist _).length_le
    rw [h] at hle
    simp at hle

/-- A nonempty whitespace-dropWhile fixpoint stays a fixpoint when
anything is appended. -/
theorem dropWhile_fix_append (l m : List Char) (hl : l.dropWhile isPySpace = l)
    (hne : l ≠ []) : (l ++ m).dropWhile isPySpace = l ++ m := by
  cases l with
  | nil => exact absurd rfl hne
  | cons y ys =>
    have hy : isPySpace y = false := head_not_space_of_fix y ys hl
    rw [List.cons_append, List.dropWhile_cons, if_neg (by simp [hy])]

/-- Prefixing a nonempty strip fixpoint with a string that starts with a
non-whitespace character keeps it a strip fixpoint. -/
theorem pyStrip_fixed_concat (p q : String) (hq : pyStrip q = q) (hqne : q.data ≠ [])
    (hp1 : p.data.dropWhile isPySpace = p.data) (hp2 : p.data ≠ []) :
    pyStrip (p ++ q) = p ++ q := by
  have hq2 := pyStrip_fix_parts q hq
  have he : pyStripL ((p ++ q).data) = (p ++ q).data := by
    rw [String.data_append]
    apply pyStripL_of_ends
    · exact dropWhile_fix_append p.data q.data hp1 hp2
    · rw [List.reverse_append]
      exact dropWhile_fix_append q.data.reverse p.data.reverse hq2.2
        (by simpa using hqne)
  show (⟨pyStripL (p ++ q).data⟩ : String) = _
  rw [he]

/-- C7 (amended): for a stripped non-empty query q, the free-text
search handler runs the same query as the /search command but with
limit 10 where /search uses 20 — its rows are the first 10 of the
/search rows — and replies with one plain message without buttons,
while /search sends one button-carrying message per hit; an empty query
is answered with a usage hint and no search. -/
theorem text_search_vs_cmd_search (q : String) (db : DB)
    (hq : pyStrip q = q) (hne : q ≠ "") :
    handle_text ("search:" ++ q) db
      = (if (search_rows q 10 db).isEmpty then TextAction.reply [.plain "No resources found."]
         else .reply [.plain (searchListing (search_rows q 10 db))])
    ∧ cmd_search ("/search " ++ q) db
      = (if (search_rows q 20 db).isEmpty then [OutMsg.plain "No matches found."]
         else (search_rows q 20 db).map
           (fun r => .withButton (searchHitText r) ("get:" ++ toString r.id)))
    ∧ search_rows q 10 db = (search_rows q 20 db).take 10
    ∧ handle_text "search:" db = .reply [.plain "Usage: search: <query>"] := by
  have hqne : q.data ≠ [] := fun hd => hne (String.ext (by simpa using hd))
  have htext : pyStrip ("search:" ++ q) = "search:" ++ q :=
    pyStrip_fixed_concat "search:" q hq hqne (by decide) (by decide)
  have hlow : litPre "search:".data (lowerStr ("search:" ++ q)).data = true := by
    show litPre "search:".data (("search:" ++ q).data.map lowerAscii) = true
    rw [String.data_append, List.map_append,
      show "search:".data.map lowerAscii = "search:".data from by decide]
    exact litPre_append _ _
  have hshape : ("search:" ++ q).data = "search".data ++ ':' :: q.data := by
    rw [String.data_append, show "search:".data = "search".data ++ [':'] from by decide,
      List.append_assoc, List.singleton_append]
  have hpart : pyPartitionAfter ':' ("search:" ++ q) = q := by
    rw [pyPartitionAfter, hshape, splitAtFirst_append ':' _ _ (by decide)]
  have hshape2 : ("/search " ++ q).data = "/search".data ++ ' ' :: q.data := by
    rw [String.data_append, show "/search ".data = "/search".data ++ [' '] from by decide,
      List.append_assoc, List.singleton_append]
  have hpart2 : pyPartitionAfter ' ' ("/search " ++ q) = q := by
    rw [pyPartitionAfter, hshape2, splitAtFirst_append ' ' _ _ (by decide)]
  refine ⟨?_, ?_, ?_, ?_⟩
  · simp only [handle_text, htext, hlow, hpart, hq, if_true]
    simp [hne]
  · simp only [cmd_search, hpart2, hq]
    simp [hne]
  · rw [search_rows, search_rows, List.take_take]
    norm_num
  · rfl

/-- Concrete instance of the amended C7: query "q" on the empty store,
where both handlers find nothing and the 10-row truncation is trivial. -/
theorem text_search_vs_cmd_search_witness :
    pyStrip "q" = "q"
    ∧ handle_text ("search:" ++ "q") dbEmpty = .reply [.plain "No resources found."]
    ∧ search_rows "q" 10 dbEmpty = (search_rows "q" 20 dbEmpty).take 10 := by
  have h := text_search_vs_cmd_search "q" dbEmpty (by decide) (by decide)
  refine ⟨by decide, ?_, h.2.2.1⟩
  have h1 := h.1
  rw [if_pos (by decide)] at h1
  exact h1

/-- The store used to separate the two search limits: eleven rows all
matching the query "q". -/
def dbC7 : DB := ⟨(List.range 11).map (fun i => ⟨i + 1, "q", "f", "", "", "u", i + 1⟩), 12⟩

set_option maxRecDepth 4000 in
/-- C7 is false as stated: on a store with eleven matching rows the
/search command sends eleven messages while the free-text handler lists
only the ten rows of its smaller search, so the two do not run the same
search with the same result limit. -/
theorem text_search_limit_counterexample :
    (cmd_search "/search q" dbC7).length = 11
    ∧ (search_rows "q" 10 dbC7).length = 10
    ∧ handle_text "search:q" dbC7 = .reply [.plain (searchListing (search_rows "q" 10 dbC7))]
    ∧ search_rows "q" 10 dbC7 ≠ search_rows "q" 20 dbC7 := by decide

/-! ## Claim C10 -/

/-- C10: a download callback whose payload after the "get:" prefix does
not parse as an integer is answered "Invalid id." with no store lookup,
no file access and no document sent. -/
theorem invalid_callback_id (payload : String) (db : DB) (files : List String)
    (sendOk : Bool) (h : pyParseInt payload = none) :
    handle_get_callback ("get:" ++ payload) db files sendOk
      = ⟨"Invalid id.", [], [], false⟩ := by
  have hshape : ("get:" ++ payload).data = "get".data ++ ':' :: payload.data := by
    rw [String.data_append, show "get:".data = "get".data ++ [':'] from by decide,
      List.append_assoc, List.singleton_append]
  have hpart : pyPartitionAfter ':' ("get:" ++ payload) = payload := by
    rw [pyPartitionAfter, hshape, splitAtFirst_append ':' _ _ (by decide)]
  simp only [handle_get_callback, hpart, h]

/-- Concrete instance of C10: the callback data "get:abc". -/
theorem invalid_callback_id_witness :
    pyParseInt "abc" = none
    ∧ handle_get_callback "get:abc" dbEmpty [] true
        = ⟨"Invalid id.", [], [], false⟩ := by
  refine ⟨by decide, ?_⟩
  have h := invalid_callback_id "abc" dbEmpty [] true (by decide)
  rw [show ("get:" ++ "abc" : String) = "get:abc" from by decide] at h
  exact h

end MuBot
